import Mathlib

set_option maxRecDepth 100000

/-!
# Verification of the `site/build.js` static-site generator

This file gives a shallow embedding of the string-processing pipeline of
`src/site/build.js` and proves properties about it.

JS strings are modelled as `List Char` (sequences of code points; the
program only manipulates BMP text, where JS UTF-16 code units and code
points coincide).  JS numbers arising here are all naturals.  The
process-level behaviour of the script (environment lookup, fatal exit,
file output) is modelled by a pure function returning `Except`: an
`Except.error` models the fatal non-zero exit with the message printed to
standard error and no output written, `Except.ok` the produced HTML text.
-/

namespace Resume

/-- The apostrophe character `'` (U+0027). -/
def apostrophe : Char := Char.ofNat 39

/-- The backtick character (U+0060). -/
def backtick : Char := Char.ofNat 96

/-- Global replacement of a single character by a string:
`s.replace(/c/g, rep)` for a single-character pattern `c`. -/
def replaceChar (target : Char) (rep : List Char) : List Char → List Char
  | [] => []
  | c :: rest => (if c = target then rep else [c]) ++ replaceChar target rep rest

/-- `escapeHtml` from `build.js` (string case): the chain
`.replace(/&/g,"&amp;").replace(/</g,"&lt;").replace(/>/g,"&gt;")
.replace(/"/g,"&quot;").replace(/'/g,"&#039;")`.
(The `typeof text !== "string"` pass-through is not modelled: every call
site in the program passes a string.) -/
def escapeHtml (text : List Char) : List Char :=
  replaceChar apostrophe "&#039;".data
    (replaceChar '"' "&quot;".data
      (replaceChar '>' "&gt;".data
        (replaceChar '<' "&lt;".data
          (replaceChar '&' "&amp;".data text))))

/-- Single-character escape map; `escapeHtml` is proved below to be the
pointwise extension of this map (`escapeHtml_eq_flatMap`). -/
def esc (c : Char) : List Char :=
  if c = '&' then "&amp;".data
  else if c = '<' then "&lt;".data
  else if c = '>' then "&gt;".data
  else if c = '"' then "&quot;".data
  else if c = apostrophe then "&#039;".data
  else [c]

/-- The five entity tails that may legitimately follow a `&` in escaped
output. -/
def entityTails : List (List Char) :=
  ["amp;".data, "lt;".data, "gt;".data, "quot;".data, "#039;".data]

/-- Scanner detecting a *raw* occurrence of one of the five HTML
metacharacters: any `<`, `>`, `"` or `'`, or a `&` that does not begin
one of the five entities produced by `escapeHtml`. -/
def hasRawMeta : List Char → Bool
  | [] => false
  | c :: rest =>
    if c = '<' ∨ c = '>' ∨ c = '"' ∨ c = apostrophe then true
    else if c = '&' then
      if entityTails.any (fun t => t.isPrefixOf rest) then hasRawMeta rest
      else true
    else hasRawMeta rest

/-- `String.prototype.split` with a single-character separator:
`"".split(d) = [""]`, separators delimit (possibly empty) fields. -/
def jsSplit (d : Char) : List Char → List (List Char)
  | [] => [[]]
  | c :: rest =>
    let r := jsSplit d rest
    if c = d then [] :: r
    else (c :: r.headD []) :: r.tail

/-- Substitution of the regex `/d([^d]+)d/g` (for a one-character
delimiter `d`) by `pre ++ $1 ++ post`, expressed on the fields of
`jsSplit d`: consecutive delimiters with a non-empty field between them
form a match (leftmost-first, as the JS regex engine scans), a delimiter
that cannot be paired stays literal. -/
def pairSegs (d : Char) (pre post : List Char) : List (List Char) → List Char
  | [] => []
  | [s] => s
  | [s, t] => s ++ d :: t
  | s :: t :: u :: rest =>
    if t = [] then s ++ d :: pairSegs d pre post (t :: u :: rest)
    else s ++ pre ++ t ++ post ++ pairSegs d pre post (u :: rest)

/-- `s.replace(/d([^d]+)d/g, pre ++ "$1" ++ post)` for a one-character
delimiter `d`. -/
def pairSubst (d : Char) (pre post : List Char) (l : List Char) : List Char :=
  pairSegs d pre post (jsSplit d l)

/-- `formatText` from `build.js` (string case): escape, then
`*X*` → `<strong>X</strong>`, then `_X_` → `<em>X</em>`, then
`\n` → `<br>`. -/
def formatText (text : List Char) : List Char :=
  replaceChar '\n' "<br>".data
    (pairSubst '_' "<em>".data "</em>".data
      (pairSubst '*' "<strong>".data "</strong>".data
        (escapeHtml text)))

/-- `obfuscate` from `build.js`: `str.split("").map(c => c.charCodeAt(0) + shift)`
with `shift = 7`. -/
def obfuscate (str : List Char) : List Nat :=
  str.map (fun c => c.toNat + 7)

/-- The decoding step described by the specification (the client-side
reveal script is not part of this repository): subtract the constant 7
from each integer and convert back to a character. -/
def decodeShifted (l : List Nat) : List Char :=
  l.map (fun n => Char.ofNat (n - 7))

/-- `String.prototype.indexOf` for a single-character search string:
index of the first occurrence, `-1` if absent. -/
def jsIndexOf (c : Char) : List Char → Int
  | [] => -1
  | x :: rest =>
    if x = c then 0
    else
      let r := jsIndexOf c rest
      if r = -1 then -1 else r + 1

/-- `maskEmail` from `build.js`: if `email.indexOf("@") > 0`, return
`"***" + email.substring(atIndex)`, else `"***"`. -/
def maskEmail (email : List Char) : List Char :=
  let atIndex := jsIndexOf '@' email
  if atIndex > 0 then "***".data ++ email.drop atIndex.toNat
  else "***".data

/-- The characters matched by the JS regex class `\s` (restricted to the
ASCII range; the Unicode space characters never arise here). -/
def isJsWs (c : Char) : Bool :=
  c = ' ' ∨ c = '\t' ∨ c = '\n' ∨ c = '\r' ∨ c = '\x0b' ∨ c = '\x0c'

/-- `s.replace(/\s+/g, " ")`: each maximal run of whitespace becomes a
single space.  The `Bool` argument records whether the previous character
was whitespace (i.e. whether we are inside a run). -/
def collapseWsGo : Bool → List Char → List Char
  | _, [] => []
  | inRun, c :: rest =>
    if isJsWs c then
      if inRun then collapseWsGo true rest else ' ' :: collapseWsGo true rest
    else c :: collapseWsGo false rest

/-- `s.replace(/\s+/g, " ")` from `maskPhone`. -/
def collapseWs (l : List Char) : List Char := collapseWsGo false l

/-- `String.prototype.trim`: strip leading and trailing whitespace. -/
def jsTrim (l : List Char) : List Char :=
  ((l.dropWhile isJsWs).reverse.dropWhile isJsWs).reverse

/-- `String.prototype.slice(-4)`: the last four characters, or the whole
string when it is shorter. -/
def sliceLast4 (s : List Char) : List Char :=
  s.drop (s.length - 4)

/-- `maskPhone` from `build.js`. -/
def maskPhone (phone : List Char) : List Char :=
  let cleaned := jsTrim (collapseWs phone)
  let parts := jsSplit ' ' cleaned
  if parts.length ≥ 2 then
    let countryCode := parts.headD []
    let lastPart := parts.getLastD []
    let lastDigits := sliceLast4 lastPart
    countryCode ++ " *** *** ".data ++ lastDigits
  else "*** *** ****".data

/-- The multiset of characters that can appear in the escape entities. -/
def entityChars : List Char := "&amp;&lt;&gt;&quot;&#039;".data

/-- The value of a `Row` in `data.json`: a string for text-like rows, a
2-D grid of cell strings for `type: "table"` rows (§3 of the design:
the `type` field fully determines the shape of `value`). -/
inductive RowVal where
  | strV (s : List Char)
  | tableV (g : List (List (List Char)))
deriving DecidableEq

/-- A row of a block: `{ title, type, value }`. -/
structure Row where
  title : List Char
  type : List Char
  value : RowVal
deriving DecidableEq

/-- A block of a section: `{ rows }`. -/
structure Block where
  rows : List Row
deriving DecidableEq

/-- A section of the document: `{ title, blocks }`. -/
structure Sect where
  title : List Char
  blocks : List Block
deriving DecidableEq

/-- The contact record: `{ email, phone, location }`. -/
structure Contact where
  email : List Char
  phone : List Char
  location : List Char
deriving DecidableEq

/-- The top-level document of `data.json`. -/
structure Document where
  name : List Char
  contact : Contact
  sections : List Sect
deriving DecidableEq

/-- JS coercion of a (possibly nested) array of strings to a string, as
performed when a non-string is interpolated into a template literal:
elements joined by `","`, nested arrays flattened the same way. -/
def jsArrToString (g : List (List (List Char))) : List Char :=
  List.intercalate ",".data (g.map (fun r => List.intercalate ",".data r))

/-- `entry(label, value)` from `build.js`:
`typeof value === "string" && !value.includes("<") ? formatText(value) : value`,
then the fixed wrapper markup with `escapeHtml(label)`.  A non-string
value is stringified by the template-literal interpolation. -/
def entry (label : List Char) (value : RowVal) : List Char :=
  let safeValue : List Char :=
    match value with
    | .strV v => if v.contains '<' then v else formatText v
    | .tableV g => jsArrToString g
  "<div class=\"entry\">\n      <div class=\"entry-label\">".data
    ++ escapeHtml label
    ++ "</div>\n      <div class=\"entry-value\">".data
    ++ safeValue
    ++ "</div>\n    </div>".data

/-- The grid carried by a table row.  (`renderTableRow` is only reached
for `type: "table"`, where the data model guarantees a grid; on a string
value the JS code would throw, which a total embedding cannot express.) -/
def RowVal.asTable : RowVal → List (List (List Char))
  | .strV _ => []
  | .tableV g => g

/-- `renderTableRow` from `build.js`: one `<tr>` per outer element, each
cell formatted with `formatText` inside `<td>`, wrapped as a labeled
entry (the table markup is a string, hence enters `entry` as `strV`). -/
def renderTableRow (row : Row) : List Char :=
  let tableHtml :=
    "<table class=\"data-table\">".data
      ++ (row.value.asTable.map (fun rowData =>
            "<tr>".data
              ++ (rowData.map (fun cell => "<td>".data ++ formatText cell ++ "</td>".data)).flatten
              ++ "</tr>".data)).flatten
      ++ "</table>".data
  entry row.title (.strV tableHtml)

/-- `renderRow` from `build.js`: dispatch on `row.type`. -/
def renderRow (row : Row) : List Char :=
  if row.type = "table".data then renderTableRow row
  else entry row.title row.value

/-- `generateSection` from `build.js`, with the exact literal whitespace
of the template strings. -/
def generateSection (s : Sect) : List Char :=
  "<section>\n  <h2>".data ++ escapeHtml s.title
    ++ "</h2>\n  <div class=\"section-content\">\n".data
    ++ (s.blocks.map (fun b =>
          "    <div class=\"entry-block\">\n".data
            ++ (b.rows.map (fun r => "    ".data ++ renderRow r ++ "\n".data)).flatten
            ++ "    </div>\n".data)).flatten
    ++ "  </div>\n</section>\n".data

/-- `JSON.stringify` of an array of naturals: decimal representations
joined by `","` inside brackets. -/
def jsonNumArr (l : List Nat) : List Char :=
  '[' :: List.intercalate ",".data (l.map (fun n => (Nat.repr n).data)) ++ "]".data

/-- `generateHeader` from `build.js`. -/
def generateHeader (data : Document) : List Char :=
  let emailObf := jsonNumArr (obfuscate data.contact.email)
  let phoneObf := jsonNumArr (obfuscate data.contact.phone)
  let emailMasked := maskEmail data.contact.email
  let phoneMasked := maskPhone data.contact.phone
  "<header class=\"header\">\n  <h1>".data ++ escapeHtml data.name
    ++ "</h1>\n  <div class=\"contact-info\">\n    <span class=\"protected bold\" data-o=\"".data
    ++ escapeHtml emailObf
    ++ "\" data-type=\"email\" title=\"Click to reveal\">".data
    ++ escapeHtml emailMasked
    ++ "</span>\n    <span class=\"protected\" data-o=\"".data
    ++ escapeHtml phoneObf
    ++ "\" data-type=\"phone\" title=\"Click to reveal\">".data
    ++ escapeHtml phoneMasked
    ++ "</span>\n    <span>".data
    ++ escapeHtml data.contact.location
    ++ "</span>\n  </div>\n</header>\n".data

/-- `generateContent` from `build.js`: header then the sections in
order. -/
def generateContent (data : Document) : List Char :=
  generateHeader data ++ (data.sections.map generateSection).flatten

/-- Leftmost occurrence of `pat` as a contiguous sublist: returns
`some (before, after)` with the scanned text equal to
`before ++ pat ++ after`, or `none` when `pat` does not occur. -/
def findFirstSplit (pat : List Char) : List Char → Option (List Char × List Char)
  | [] => if pat = [] then some ([], []) else none
  | c :: rest =>
    if pat.isPrefixOf (c :: rest) then some ([], (c :: rest).drop pat.length)
    else
      match findFirstSplit pat rest with
      | some (b, a) => some (c :: b, a)
      | none => none

/-- `GetSubstitution` of the ECMAScript `String.prototype.replace` for a
string search value: expand `$$` to `$`, `$&` to the matched pattern,
`$` + backtick to the text before the match, `$'` to the text after the
match; any other `$` sequence is kept literally. -/
def getSubstitution (matched before after : List Char) : List Char → List Char
  | [] => []
  | c :: rest =>
    if c = '$' then
      match rest with
      | [] => ['$']
      | c2 :: rest2 =>
        if c2 = '$' then '$' :: getSubstitution matched before after rest2
        else if c2 = '&' then matched ++ getSubstitution matched before after rest2
        else if c2 = backtick then before ++ getSubstitution matched before after rest2
        else if c2 = apostrophe then after ++ getSubstitution matched before after rest2
        else '$' :: getSubstitution matched before after (c2 :: rest2)
    else c :: getSubstitution matched before after rest

/-- `String.prototype.replace` with a string search value: replace the
first occurrence only (no occurrence: the string is returned unchanged),
expanding `$` replacement patterns in the replacement string. -/
def jsReplaceFirst (pat rep l : List Char) : List Char :=
  match findFirstSplit pat l with
  | none => l
  | some (b, a) => b ++ getSubstitution pat b a rep ++ a

/-- The content marker of the template. -/
def contentMarker : List Char := "<!-- CONTENT -->".data

/-- The name marker of the template. -/
def nameMarker : List Char := "\x7b\x7bNAME\x7d\x7d".data

/-- The two template substitutions of `build.js`:
`template.replace("<!-- CONTENT -->", content)` then
`.replace("{{NAME}}", escapeHtml(data.name))`. -/
def buildOutput (data : Document) (template : List Char) : List Char :=
  let content := generateContent data
  let output := jsReplaceFirst contentMarker content template
  jsReplaceFirst nameMarker (escapeHtml data.name) output

/-- Truthiness of `process.env.X` in the guard `!PII_EMAIL || !PII_PHONE`:
an absent variable (`undefined`) and the empty string are falsy. -/
def jsFalsy : Option (List Char) → Bool
  | none => true
  | some s => s.isEmpty

/-- The error message printed when a secret is missing. -/
def missingSecretMsg : List Char :=
  "Error: PII_EMAIL and PII_PHONE environment variables are required.".data

/-- The top-level script of `build.js` as a pure pipeline: given the two
environment secrets, the parsed document and the template text, either
fail fatally (`Except.error`, modelling the message on standard error,
`process.exit(1)` and no output written) or produce the output HTML.
The contact fields are overwritten with the secrets before any
rendering. -/
def runBuild (piiEmail piiPhone : Option (List Char)) (data : Document)
    (template : List Char) : Except (List Char) (List Char) :=
  if jsFalsy piiEmail ∨ jsFalsy piiPhone then
    .error missingSecretMsg
  else
    let data' : Document :=
      { data with contact :=
        { data.contact with
            email := piiEmail.getD []
            phone := piiPhone.getD [] } }
    .ok (buildOutput data' template)

/-- A small concrete document used as a test fixture. -/
def exampleDoc : Document :=
  { name := "Jane".data
  , contact := { email := "old".data, phone := "old2".data, location := "Rome".data }
  , sections := [] }

/-- A document whose rendered content contains the two-character
sequence `$$` (a JS replacement pattern), via its location field. -/
def dollarDoc : Document :=
  { name := "N".data
  , contact := { email := "e".data, phone := "p".data, location := "$$".data }
  , sections := [] }

/-! ## Structure lemmas for `escapeHtml` -/

theorem replaceChar_append (t : Char) (r a b : List Char) :
    replaceChar t r (a ++ b) = replaceChar t r a ++ replaceChar t r b := by
  induction a with
  | nil => rfl
  | cons c a ih => simp [replaceChar, ih]

theorem escapeHtml_singleton (c : Char) : escapeHtml [c] = esc c := by
  by_cases h1 : c = '&'
  · subst h1; decide
  by_cases h2 : c = '<'
  · subst h2; decide
  by_cases h3 : c = '>'
  · subst h3; decide
  by_cases h4 : c = '"'
  · subst h4; decide
  by_cases h5 : c = apostrophe
  · subst h5; decide
  simp [escapeHtml, esc, replaceChar, h1, h2, h3, h4, h5]

theorem escapeHtml_cons (c : Char) (s : List Char) :
    escapeHtml (c :: s) = esc c ++ escapeHtml s := by
  have : escapeHtml ([c] ++ s) = escapeHtml [c] ++ escapeHtml s := by
    simp only [escapeHtml, replaceChar_append]
  simpa [escapeHtml_singleton] using this

/-- `escapeHtml` is the pointwise extension of the single-character
escape map. -/
theorem escapeHtml_eq_flatMap (s : List Char) : escapeHtml s = s.flatMap esc := by
  induction s with
  | nil => rfl
  | cons c s ih => simp [escapeHtml_cons, ih]

theorem mem_esc {x c : Char} (h : x ∈ esc c) :
    (x = c ∧ ¬(c = '&' ∨ c = '<' ∨ c = '>' ∨ c = '"' ∨ c = apostrophe)) ∨
      x ∈ entityChars := by
  by_cases h1 : c = '&'
  · subst h1; rw [show esc '&' = "&amp;".data from by decide] at h
    right; fin_cases h <;> decide
  by_cases h2 : c = '<'
  · subst h2; rw [show esc '<' = "&lt;".data from by decide] at h
    right; fin_cases h <;> decide
  by_cases h3 : c = '>'
  · subst h3; rw [show esc '>' = "&gt;".data from by decide] at h
    right; fin_cases h <;> decide
  by_cases h4 : c = '"'
  · subst h4; rw [show esc '"' = "&quot;".data from by decide] at h
    right; fin_cases h <;> decide
  by_cases h5 : c = apostrophe
  · subst h5; rw [show esc apostrophe = "&#039;".data from by decide] at h
    right; fin_cases h <;> decide
  · left
    simp only [esc, if_neg h1, if_neg h2, if_neg h3, if_neg h4, if_neg h5,
      List.mem_singleton] at h
    exact ⟨h, by tauto⟩

/-! ## No raw metacharacters after escaping (C2) -/

theorem hasRawMeta_cons_plain {c : Char} (R : List Char)
    (h : ¬(c = '<' ∨ c = '>' ∨ c = '"' ∨ c = apostrophe)) (h2 : c ≠ '&') :
    hasRawMeta (c :: R) = hasRawMeta R := by
  simp [hasRawMeta, h, h2]

theorem hasRawMeta_esc_append (c : Char) (R : List Char) :
    hasRawMeta (esc c ++ R) = hasRawMeta R := by
  by_cases h1 : c = '&'
  · subst h1
    rw [show esc '&' = "&amp;".data from by decide]
    show hasRawMeta ('&' :: 'a' :: 'm' :: 'p' :: ';' :: R) = hasRawMeta R
    rw [show hasRawMeta ('&' :: 'a' :: 'm' :: 'p' :: ';' :: R)
        = hasRawMeta ('a' :: 'm' :: 'p' :: ';' :: R) from by
      simp [hasRawMeta, entityTails, List.isPrefixOf,
        show ('&' = apostrophe) = False from by decide]]
    rw [hasRawMeta_cons_plain _ (by decide) (by decide),
      hasRawMeta_cons_plain _ (by decide) (by decide),
      hasRawMeta_cons_plain _ (by decide) (by decide),
      hasRawMeta_cons_plain _ (by decide) (by decide)]
  by_cases h2 : c = '<'
  · subst h2
    rw [show esc '<' = "&lt;".data from by decide]
    show hasRawMeta ('&' :: 'l' :: 't' :: ';' :: R) = hasRawMeta R
    rw [show hasRawMeta ('&' :: 'l' :: 't' :: ';' :: R)
        = hasRawMeta ('l' :: 't' :: ';' :: R) from by
      simp [hasRawMeta, entityTails, List.isPrefixOf,
        show ('&' = apostrophe) = False from by decide]]
    rw [hasRawMeta_cons_plain _ (by decide) (by decide),
      hasRawMeta_cons_plain _ (by decide) (by decide),
      hasRawMeta_cons_plain _ (by decide) (by decide)]
  by_cases h3 : c = '>'
  · subst h3
    rw [show esc '>' = "&gt;".data from by decide]
    show hasRawMeta ('&' :: 'g' :: 't' :: ';' :: R) = hasRawMeta R
    rw [show hasRawMeta ('&' :: 'g' :: 't' :: ';' :: R)
        = hasRawMeta ('g' :: 't' :: ';' :: R) from by
      simp [hasRawMeta, entityTails, List.isPrefixOf,
        show ('&' = apostrophe) = False from by decide]]
    rw [hasRawMeta_cons_plain _ (by decide) (by decide),
      hasRawMeta_cons_plain _ (by decide) (by decide),
      hasRawMeta_cons_plain _ (by decide) (by decide)]
  by_cases h4 : c = '"'
  · subst h4
    rw [show esc '"' = "&quot;".data from by decide]
    show hasRawMeta ('&' :: 'q' :: 'u' :: 'o' :: 't' :: ';' :: R) = hasRawMeta R
    rw [show hasRawMeta ('&' :: 'q' :: 'u' :: 'o' :: 't' :: ';' :: R)
        = hasRawMeta ('q' :: 'u' :: 'o' :: 't' :: ';' :: R) from by
      simp [hasRawMeta, entityTails, List.isPrefixOf,
        show ('&' = apostrophe) = False from by decide]]
    rw [hasRawMeta_cons_plain _ (by decide) (by decide),
      hasRawMeta_cons_plain _ (by decide) (by decide),
      hasRawMeta_cons_plain _ (by decide) (by decide),
      hasRawMeta_cons_plain _ (by decide) (by decide),
      hasRawMeta_cons_plain _ (by decide) (by decide)]
  by_cases h5 : c = apostrophe
  · subst h5
    rw [show esc apostrophe = "&#039;".data from by decide]
    show hasRawMeta ('&' :: '#' :: '0' :: '3' :: '9' :: ';' :: R) = hasRawMeta R
    rw [show hasRawMeta ('&' :: '#' :: '0' :: '3' :: '9' :: ';' :: R)
        = hasRawMeta ('#' :: '0' :: '3' :: '9' :: ';' :: R) from by
      simp [hasRawMeta, entityTails, List.isPrefixOf,
        show ('&' = apostrophe) = False from by decide]]
    rw [hasRawMeta_cons_plain _ (by decide) (by decide),
      hasRawMeta_cons_plain _ (by decide) (by decide),
      hasRawMeta_cons_plain _ (by decide) (by decide),
      hasRawMeta_cons_plain _ (by decide) (by decide),
      hasRawMeta_cons_plain _ (by decide) (by decide)]
  · rw [show esc c = [c] from by simp [esc, h1, h2, h3, h4, h5],
      List.singleton_append, hasRawMeta_cons_plain _ (by tauto) h1]

/-- The escaped output never contains a raw metacharacter, whatever the
input. -/
theorem hasRawMeta_escapeHtml (s : List Char) : hasRawMeta (escapeHtml s) = false := by
  induction s with
  | nil => decide
  | cons c s ih => rw [escapeHtml_cons, hasRawMeta_esc_append, ih]

theorem escapeHtml_no_meta4 (s : List Char) :
    ∀ x ∈ escapeHtml s, ¬(x = '<' ∨ x = '>' ∨ x = '"' ∨ x = apostrophe) := by
  intro x hx
  rw [escapeHtml_eq_flatMap, List.mem_flatMap] at hx
  obtain ⟨c, -, hxc⟩ := hx
  rcases mem_esc hxc with ⟨rfl, hc⟩ | hent
  · tauto
  · rw [show entityChars = "&amp;&lt;&gt;&quot;&#039;".data from rfl] at hent
    fin_cases hent <;> decide

/-- Claim C2: For every string containing at least one of the five HTML
metacharacters, `escapeHtml`'s output contains no raw metacharacter:
no `<`, `>`, `"` or `'` at all, and every `&` begins one of the five
entities. -/
theorem escapeHtml_removes_raw_meta (s : List Char)
    (_h : ∃ c ∈ s, c = '&' ∨ c = '<' ∨ c = '>' ∨ c = '"' ∨ c = apostrophe) :
    hasRawMeta (escapeHtml s) = false ∧
      ∀ x ∈ escapeHtml s, ¬(x = '<' ∨ x = '>' ∨ x = '"' ∨ x = apostrophe) :=
  ⟨hasRawMeta_escapeHtml s, escapeHtml_no_meta4 s⟩

/-- Witness for C2 at the concrete input `"<a&b>"`. -/
theorem escapeHtml_removes_raw_meta_witness :
    (∃ c ∈ "<a&b>".data, c = '&' ∨ c = '<' ∨ c = '>' ∨ c = '"' ∨ c = apostrophe) ∧
      (hasRawMeta (escapeHtml "<a&b>".data) = false ∧
        ∀ x ∈ escapeHtml "<a&b>".data,
          ¬(x = '<' ∨ x = '>' ∨ x = '"' ∨ x = apostrophe)) :=
  ⟨⟨'<', by decide⟩, escapeHtml_removes_raw_meta "<a&b>".data ⟨'<', by decide⟩⟩

/-! ## The obfuscation round-trip (C1) -/

/-- Claim C1: For printable-ASCII contact strings, subtracting 7 from each
integer of `obfuscate s` and converting back to characters reconstructs
`s` exactly. -/
theorem decodeShifted_obfuscate (s : List Char)
    (_h : ∀ c ∈ s, 32 ≤ c.toNat ∧ c.toNat ≤ 126) :
    decodeShifted (obfuscate s) = s := by
  unfold decodeShifted obfuscate
  rw [List.map_map]
  conv_rhs => rw [← List.map_id s]
  apply List.map_congr_left
  intro c _
  simp [Nat.add_sub_cancel, Char.ofNat_toNat]

/-- Witness for C1 at the concrete input `"jane@x.io"`. -/
theorem decodeShifted_obfuscate_witness :
    (∀ c ∈ "jane@x.io".data, 32 ≤ c.toNat ∧ c.toNat ≤ 126) ∧
      decodeShifted (obfuscate "jane@x.io".data) = "jane@x.io".data :=
  ⟨by decide, decodeShifted_obfuscate "jane@x.io".data (by decide)⟩

/-! ## The formatter is pure escaping on marker-free text (C3) -/

theorem replaceChar_of_not_mem {t : Char} {l : List Char} (h : t ∉ l) (r : List Char) :
    replaceChar t r l = l := by
  induction l with
  | nil => rfl
  | cons c l ih =>
    simp only [List.mem_cons, not_or] at h
    have hne : c ≠ t := fun he => h.1 he.symm
    simp [replaceChar, hne, ih h.2]

theorem jsSplit_of_not_mem {d : Char} {l : List Char} (h : d ∉ l) :
    jsSplit d l = [l] := by
  induction l with
  | nil => rfl
  | cons c l ih =>
    simp only [List.mem_cons, not_or] at h
    have hne : c ≠ d := fun he => h.1 he.symm
    simp [jsSplit, hne, ih h.2]

theorem pairSubst_of_not_mem {d : Char} {l : List Char} (h : d ∉ l)
    (pre post : List Char) : pairSubst d pre post l = l := by
  rw [pairSubst, jsSplit_of_not_mem h, pairSegs]

theorem not_mem_escapeHtml {x : Char} {s : List Char}
    (hs : x ∉ s) (hent : x ∉ entityChars) : x ∉ escapeHtml s := by
  intro hx
  rw [escapeHtml_eq_flatMap, List.mem_flatMap] at hx
  obtain ⟨c, hc, hxc⟩ := hx
  rcases mem_esc hxc with ⟨rfl, -⟩ | h
  · exact hs hc
  · exact hent h

/-- Claim C3, counterexample: `"a\nb"` contains none of `<`, `_`, `*`,
yet `formatText` and `escapeHtml` differ on it: the newline becomes
`<br>`. -/
theorem formatText_ne_escapeHtml_newline :
    ('<' ∉ "a\nb".data ∧ '_' ∉ "a\nb".data ∧ '*' ∉ "a\nb".data) ∧
      formatText "a\nb".data ≠ escapeHtml "a\nb".data := by
  constructor
  · decide
  · decide

/-- Claim C3, amended: For every string containing no `<`, `_`, `*` and
no newline, `formatText` coincides with `escapeHtml`. -/
theorem formatText_eq_escapeHtml (s : List Char)
    (h : '<' ∉ s ∧ '_' ∉ s ∧ '*' ∉ s ∧ '\n' ∉ s) :
    formatText s = escapeHtml s := by
  obtain ⟨-, h2, h3, h4⟩ := h
  have hstar : '*' ∉ escapeHtml s := not_mem_escapeHtml h3 (by decide)
  have hund : '_' ∉ escapeHtml s := not_mem_escapeHtml h2 (by decide)
  have hnl : '\n' ∉ escapeHtml s := not_mem_escapeHtml h4 (by decide)
  rw [formatText, pairSubst_of_not_mem hstar, pairSubst_of_not_mem hund,
    replaceChar_of_not_mem hnl]

/-- Witness for the amended C3 at the concrete input `"r&d, q>p"`. -/
theorem formatText_eq_escapeHtml_witness :
    ('<' ∉ "r&d, q>p".data ∧ '_' ∉ "r&d, q>p".data ∧ '*' ∉ "r&d, q>p".data ∧
        '\n' ∉ "r&d, q>p".data) ∧
      formatText "r&d, q>p".data = escapeHtml "r&d, q>p".data :=
  ⟨by decide, formatText_eq_escapeHtml "r&d, q>p".data (by decide)⟩

/-! ## Concrete formatter outputs (C4) -/

/-- Claim C4: `formatText` maps `"*bold*"` to `<strong>bold</strong>`,
`"_it_"` to `<em>it</em>`, and replaces a literal newline by the `<br>`
line-break marker. -/
theorem formatText_concrete :
    formatText "*bold*".data = "<strong>bold</strong>".data ∧
      formatText "_it_".data = "<em>it</em>".data ∧
      formatText "a\nb".data = "a<br>b".data := by
  refine ⟨by decide, by decide, by decide⟩

/-! ## Labeled entries for non-table rows (C5) -/

/-- Claim C5: For every row whose type is not `"table"` (with the string
value the data model prescribes there), `renderRow` produces a labeled
entry: the label is the HTML-escaped row title, and the value is emitted
unchanged when it already contains a `<` character, otherwise it is
passed through the text formatter. -/
theorem renderRow_nontable (t ty v : List Char) (h : ty ≠ "table".data) :
    renderRow ⟨t, ty, .strV v⟩ =
      "<div class=\"entry\">\n      <div class=\"entry-label\">".data
        ++ escapeHtml t
        ++ "</div>\n      <div class=\"entry-value\">".data
        ++ (if v.contains '<' then v else formatText v)
        ++ "</div>\n    </div>".data := by
  simp [renderRow, entry, h]

/-- Witness for C5 at the row `{title: "Skill", type: "text", value: "Go"}`. -/
theorem renderRow_nontable_witness :
    renderRow ⟨"Skill".data, "text".data, .strV "Go".data⟩ =
      "<div class=\"entry\">\n      <div class=\"entry-label\">".data
        ++ escapeHtml "Skill".data
        ++ "</div>\n      <div class=\"entry-value\">".data
        ++ (if ("Go".data).contains '<' then "Go".data else formatText "Go".data)
        ++ "</div>\n    </div>".data :=
  renderRow_nontable "Skill".data "text".data "Go".data (by decide)

/-! ## Email masking (C6) -/

theorem jsIndexOf_of_not_mem {c : Char} {l : List Char} (h : c ∉ l) :
    jsIndexOf c l = -1 := by
  induction l with
  | nil => rfl
  | cons x l ih =>
    simp only [List.mem_cons, not_or] at h
    have hne : x ≠ c := fun he => h.1 he.symm
    simp [jsIndexOf, hne, ih h.2]

theorem jsIndexOf_append {c : Char} {a : List Char} (h : c ∉ a) (b : List Char) :
    jsIndexOf c (a ++ c :: b) = a.length := by
  induction a with
  | nil => simp [jsIndexOf]
  | cons x a ih =>
    simp only [List.mem_cons, not_or] at h
    have hne : x ≠ c := fun he => h.1 he.symm
    rw [List.cons_append, jsIndexOf]
    simp only [if_neg hne]
    rw [ih h.2]
    have h1 : (a.length : Int) ≠ -1 := by omega
    simp only [if_neg h1]
    simp [List.length_cons]

/-- Claim C6, counterexample: On `"@x"` an `@` is found, but `maskEmail`
returns the bare placeholder instead of `"***" ++ "@x"`: the guard is
`atIndex > 0`, so an `@` at position 0 is treated as not found. -/
theorem maskEmail_at_position_zero :
    '@' ∈ "@x".data ∧ maskEmail "@x".data ≠ "***@x".data ∧
      maskEmail "@x".data = "***".data := by
  refine ⟨by decide, by decide, by decide⟩

/-- Claim C6, amended: `maskEmail` keeps the substring from the `@`
onward prefixed by `"***"` when the first `@` occurs at a positive
index; it returns the bare `"***"` when no `@` is found **or the `@` is
the first character**; the two concrete examples of the specification
hold. -/
theorem maskEmail_spec :
    (∀ a b : List Char, '@' ∉ a → a ≠ [] →
        maskEmail (a ++ '@' :: b) = "***".data ++ '@' :: b) ∧
      (∀ e : List Char, '@' ∉ e → maskEmail e = "***".data) ∧
      (∀ b : List Char, maskEmail ('@' :: b) = "***".data) ∧
      maskEmail "jane@example.com".data = "***@example.com".data ∧
      maskEmail "invalid".data = "***".data := by
  refine ⟨?_, ?_, ?_, by decide, by decide⟩
  · intro a b ha hne
    rw [maskEmail, jsIndexOf_append ha b]
    have hlen : 0 < a.length := List.length_pos.mpr hne
    rw [if_pos (by exact_mod_cast hlen)]
    simp [List.drop_left]
  · intro e he
    rw [maskEmail, jsIndexOf_of_not_mem he]
    rfl
  · intro b
    rw [maskEmail, show jsIndexOf '@' ('@' :: b) = 0 from by simp [jsIndexOf]]
    rfl

/-- Witness for the amended C6 at the concrete input `"a@b"`. -/
theorem maskEmail_spec_witness :
    maskEmail ("a".data ++ '@' :: "b".data) = "***".data ++ '@' :: "b".data :=
  maskEmail_spec.1 "a".data "b".data (by decide) (by decide)

/-! ## Phone masking (C7) -/

theorem sliceLast4_eq (l : List Char) : sliceLast4 l = (l.reverse.take 4).reverse := by
  rw [List.reverse_take]
  simp [sliceLast4]

/-- Claim C7: `maskPhone` splits on whitespace (whitespace runs collapsed,
ends trimmed, then split on a single space): with at least two
components the result is the first component, `" *** *** "`, and the
last (up to) four characters of the final component; with fewer than two
components the fully masked placeholder; the two concrete examples of
the specification hold. -/
theorem maskPhone_spec (p : List Char) :
    (2 ≤ (jsSplit ' ' (jsTrim (collapseWs p))).length →
        maskPhone p =
          (jsSplit ' ' (jsTrim (collapseWs p))).headD []
            ++ " *** *** ".data
            ++ (((jsSplit ' ' (jsTrim (collapseWs p))).getLastD []).reverse.take 4).reverse) ∧
      ((jsSplit ' ' (jsTrim (collapseWs p))).length < 2 →
        maskPhone p = "*** *** ****".data) ∧
      maskPhone "+39 345 123 7212".data = "+39 *** *** 7212".data ∧
      maskPhone "12345".data = "*** *** ****".data := by
  refine ⟨?_, ?_, by decide, by decide⟩
  · intro h
    rw [maskPhone]
    simp only [ge_iff_le, if_pos h, sliceLast4_eq]
  · intro h
    rw [maskPhone]
    simp only [ge_iff_le, if_neg (by omega : ¬2 ≤ (jsSplit ' ' (jsTrim (collapseWs p))).length)]

/-- Witness for C7 at the concrete input `"a b"`. -/
theorem maskPhone_spec_witness : maskPhone "a b".data = "a *** *** b".data := by
  have h := (maskPhone_spec "a b".data).1 (by decide)
  exact h.trans (by decide)

/-! ## The loader: required secrets and contact overwrite (C8) -/

/-- Claim C8: If either environment secret is absent or empty, the build
fails fatally with the error message and produces no output (modelled by
`Except.error`); when both are present and non-empty, the document is
rendered with `contact.email` and `contact.phone` overwritten by the
secrets before any rendering occurs. -/
theorem runBuild_spec (e p : Option (List Char)) (d : Document) (t : List Char) :
    ((jsFalsy e = true ∨ jsFalsy p = true) →
        runBuild e p d t = .error missingSecretMsg) ∧
      (∀ es ps : List Char, e = some es → es ≠ [] → p = some ps → ps ≠ [] →
        runBuild e p d t =
          .ok (buildOutput
            { d with contact :=
              { email := es, phone := ps, location := d.contact.location } } t)) := by
  constructor
  · intro h
    rw [runBuild, if_pos h]
  · rintro es ps rfl hes rfl hps
    rw [runBuild, if_neg]
    · rfl
    · simp [jsFalsy, List.isEmpty_iff, hes, hps]

/-- Witness for C8: a missing secret fails, two non-empty secrets
render the overwritten document. -/
theorem runBuild_spec_witness :
    runBuild none (some "x".data) exampleDoc contentMarker = .error missingSecretMsg ∧
      runBuild (some "j@x.io".data) (some "+1 222 3333".data) exampleDoc contentMarker =
        .ok (buildOutput
          { exampleDoc with contact :=
            { email := "j@x.io".data, phone := "+1 222 3333".data
            , location := exampleDoc.contact.location } } contentMarker) :=
  ⟨(runBuild_spec none (some "x".data) exampleDoc contentMarker).1 (Or.inl rfl),
    (runBuild_spec (some "j@x.io".data) (some "+1 222 3333".data) exampleDoc
        contentMarker).2 "j@x.io".data "+1 222 3333".data rfl (by decide) rfl (by decide)⟩

/-! ## Template marker substitution (C9, C10) -/

theorem getSubstitution_no_dollar (m bf af : List Char) {rep : List Char}
    (h : '$' ∉ rep) : getSubstitution m bf af rep = rep := by
  induction rep with
  | nil => rfl
  | cons c rest ih =>
    simp only [List.mem_cons, not_or] at h
    have hne : c ≠ '$' := fun he => h.1 he.symm
    rw [getSubstitution.eq_def]
    simp only [if_neg hne, ih h.2]

/-- Claim C9, counterexample: The content marker is present in the
template, yet the substituted output differs from the rendered body:
for a document whose content contains `$$`, the JS replacement-pattern
expansion of `String.prototype.replace` collapses it to `$`. -/
theorem template_subst_dollar_cex :
    findFirstSplit contentMarker contentMarker = some ([], []) ∧
      jsReplaceFirst contentMarker (generateContent dollarDoc) contentMarker ≠
        generateContent dollarDoc := by
  refine ⟨by decide, by decide⟩

/-- Claim C9, amended: For every template: an absent marker makes that
substitution a no-op (not an error — the output is still produced); a
present marker is replaced by the rendered body (resp. the escaped site
name) **provided the inserted string contains no `$` replacement
pattern**, the leftmost occurrence being the one replaced. -/
theorem template_subst_spec (d : Document) (t : List Char)
    (hC : '$' ∉ generateContent d) (hN : '$' ∉ escapeHtml d.name) :
    (findFirstSplit contentMarker t = none →
        jsReplaceFirst contentMarker (generateContent d) t = t) ∧
      (∀ b a : List Char, findFirstSplit contentMarker t = some (b, a) →
        jsReplaceFirst contentMarker (generateContent d) t =
          b ++ generateContent d ++ a) ∧
      (findFirstSplit nameMarker t = none →
        jsReplaceFirst nameMarker (escapeHtml d.name) t = t) ∧
      (∀ b a : List Char, findFirstSplit nameMarker t = some (b, a) →
        jsReplaceFirst nameMarker (escapeHtml d.name) t =
          b ++ escapeHtml d.name ++ a) := by
  refine ⟨?_, ?_, ?_, ?_⟩
  · intro h; rw [jsReplaceFirst, h]
  · intro b a h
    simp only [jsReplaceFirst, h]
    rw [getSubstitution_no_dollar _ _ _ hC]
  · intro h; rw [jsReplaceFirst, h]
  · intro b a h
    simp only [jsReplaceFirst, h]
    rw [getSubstitution_no_dollar _ _ _ hN]

/-- Witness for the amended C9: substituting the content of
`exampleDoc` (which contains no `$`) into a template that is exactly the
content marker yields exactly the rendered body. -/
theorem template_subst_spec_witness :
    jsReplaceFirst contentMarker (generateContent exampleDoc) contentMarker =
      [] ++ generateContent exampleDoc ++ [] :=
  (template_subst_spec exampleDoc contentMarker (by decide) (by decide)).2.1
    [] [] (by decide)

/-- Claim C10: `String.prototype.replace` with a string pattern is
first-occurrence-only: when the (leftmost) first occurrence of a marker
splits the template as `b ++ marker ++ a` and the marker occurs again in
`a`, the output is `b ++ <substituted replacement> ++ a` — everything
after the first occurrence, including all later occurrences of the
marker, is kept verbatim. -/
theorem replace_first_occurrence_only (t b a rep : List Char) :
    (findFirstSplit contentMarker t = some (b, a) →
        (findFirstSplit contentMarker a).isSome = true →
        jsReplaceFirst contentMarker rep t =
          b ++ getSubstitution contentMarker b a rep ++ a) ∧
      (findFirstSplit nameMarker t = some (b, a) →
        (findFirstSplit nameMarker a).isSome = true →
        jsReplaceFirst nameMarker rep t =
          b ++ getSubstitution nameMarker b a rep ++ a) := by
  constructor
  · intro h _; simp only [jsReplaceFirst, h]
  · intro h _; simp only [jsReplaceFirst, h]

/-- Witness for C10: a template consisting of the content marker twice;
only the first is replaced, the second survives verbatim. -/
theorem replace_first_occurrence_only_witness :
    jsReplaceFirst contentMarker "X".data (contentMarker ++ contentMarker) =
      [] ++ getSubstitution contentMarker [] contentMarker "X".data ++ contentMarker :=
  (replace_first_occurrence_only (contentMarker ++ contentMarker) [] contentMarker
      "X".data).1 (by decide) (by decide)

end Resume
